import Mathlib

/- Formal model of the seltran selective-translation editor core, a shallow
   embedding of src/seltran/gui/editor.py together with the pieces of
   src/seltran/translator.py and src/seltran/gui/__init__.py that it uses.
   A Tk text widget is modelled as a list of characters plus, for every tag,
   the list of character positions the tag covers; Tk index strings such as
   "1.0+5c" are modelled as character offsets. -/

/-- Tags of the editor textbox. The python code uses the strings
"translatable", "selected" and "_token-" followed by a decimal id; this string
encoding is injective on the three shapes, so tags are modelled as an
inductive type, with `token id` standing for `TAG_TOKEN(str(id))`. -/
inductive Tag where
  | translatable : Tag
  | selected : Tag
  | token : Nat → Tag
deriving DecidableEq

/-- Constructor `TAG_TOKEN` of editor.py: builds the token tag for an id. -/
def TAG_TOKEN (id : Nat) : Tag := Tag.token id

/-- Predicate `is_token_tag` of editor.py: recognises tags of the
`_token-` form. -/
def is_token_tag : Tag → Bool
  | .token _ => true
  | _ => false

/-- Half-open index range, the `IndexRange` dataclass of editor.py with both
endpoints as character offsets; `stop` plays the role of the python field
named `end`. -/
structure IndexRange where
  start : Nat
  stop : Nat
deriving DecidableEq

/-- The `TagInfo` dataclass of editor.py. -/
structure TagInfo where
  tag : Tag
  range : IndexRange
deriving DecidableEq

/-- One spacy token as the editor consumes it: surface text, character offset
`idx` into the analysed text, universal part-of-speech tag `pos` and
dictionary form `lemma`. -/
structure Token where
  text : String
  idx : Nat
  pos : String
  lemma_ : String
deriving DecidableEq

instance : Inhabited Token := ⟨⟨"", 0, "", ""⟩⟩

/-- A spacy token as stored in `Editor.token_tags`: spacy tokens carry a
reference to their whole document (`token.doc`) and their sequence index
(`token.i`), which `apply_picked_translation_to_selected_token` uses for the
neighbour lookup `token.nbor(1)`. -/
structure DocToken where
  doc : List Token
  i : Nat
deriving DecidableEq

/-- Surface text of the token, `token.text` in spacy terms. -/
def DocToken.text (dt : DocToken) : String := (dt.doc.getD dt.i default).text

/-- Sequence-index neighbour `token.nbor(1)` of spacy. -/
def DocToken.nbor1 (dt : DocToken) : Token := dt.doc.getD (dt.i + 1) default

/-- Unicode ranges used by `is_text_japanese` in translator.py, kept verbatim
with its duplicated entries. -/
def japanese_ranges : List (Nat × Nat) :=
  [(0x3040, 0x309F), (0x30A0, 0x30FF), (0x4E00, 0x9FFF), (0xF900, 0xFAFF),
   (0xFF65, 0xFF9F), (0x31C0, 0x31EF), (0x3200, 0x32FF), (0x3000, 0x303F),
   (0x3130, 0x318F), (0x3190, 0x319F), (0x31A0, 0x31BF), (0x31C0, 0x31EF),
   (0x31F0, 0x31FF), (0x3200, 0x32FF), (0x3300, 0x33FF), (0x3400, 0x4DBF),
   (0x4E00, 0x9FFF), (0xF900, 0xFAFF), (0xFE30, 0xFE4F), (0xFF00, 0xFFEF),
   (0x20000, 0x2A6DF), (0x2A700, 0x2B73F), (0x2B740, 0x2B81F),
   (0x2B820, 0x2CEAF)]

/-- Predicate `is_text_japanese` of translator.py: every character of the text
lies in one of the listed unicode ranges. -/
def is_text_japanese (text : String) : Bool :=
  text.toList.all fun c =>
    japanese_ranges.any fun r => decide (r.1 ≤ c.toNat) && decide (c.toNat ≤ r.2)

/-- The `TokenFilter` configuration object of translator.py. -/
structure TokenFilter where
  include_pos : List String
  exclude_lemmas : List String
  exclude_foreign : Bool
deriving DecidableEq

/-- Application of a `TokenFilter` to a token, the `__call__` method of
translator.py: conjunction of the part-of-speech inclusion check, the lemma
exclusion check and the foreign-script check. -/
def TokenFilter.matches (f : TokenFilter) (t : Token) : Bool :=
  decide (t.pos ∈ f.include_pos) &&
  decide (t.lemma_ ∉ f.exclude_lemmas) &&
  (if f.exclude_foreign then is_text_japanese t.text else true)

/-- The `Settings` dataclass of gui/__init__.py restricted to its two token
filters; the external translator object is out of scope. -/
structure Settings where
  filter_should_translate : TokenFilter
  filter_start_of_new_word : TokenFilter
deriving DecidableEq

/-- Default field values of the `Settings` dataclass in gui/__init__.py. -/
def defaultSettings : Settings :=
  { filter_should_translate := ⟨["NOUN", "VERB", "ADJ"], [], true⟩,
    filter_start_of_new_word := ⟨["VERB", "NOUN"], [], false⟩ }

/-- Python exceptions that the modelled editor methods can raise. -/
inductive Err where
  | assertionError : Err
  | keyError : Err
deriving DecidableEq

/-- Lookup in an association list, modelling python dict access with a
`Tag` key. -/
def assocGet {α : Type} : List (Tag × α) → Tag → Option α
  | [], _ => none
  | (u, v) :: rest, k => if u = k then some v else assocGet rest k

/-- Update or insert in an association list, modelling python dict item
assignment: the first entry with the key is replaced, otherwise a new entry is
appended. -/
def assocSet {α : Type} : List (Tag × α) → Tag → α → List (Tag × α)
  | [], k, v => [(k, v)]
  | (u, w) :: rest, k, v =>
    if u = k then (u, v) :: rest else (u, w) :: assocSet rest k v

/-- Removal from an association list, modelling python dict deletion. -/
def assocRemove {α : Type} (l : List (Tag × α)) (k : Tag) : List (Tag × α) :=
  l.filter fun kv => decide (kv.1 ≠ k)

/-- The `EditorTextbox` widget state: the user-visible characters (without the
automatic trailing newline that Tk keeps at the very end of the widget) and,
for every tag the widget knows, the list of character positions the tag
covers, plus the disabled flag set by `configure` with DISABLED. -/
structure Textbox where
  text : List Char
  tags : List (Tag × List Nat)
  disabled : Bool

/-- All tag names known to the widget, `tag_names()` in Tk. -/
def Textbox.tagNames (tb : Textbox) : List Tag := tb.tags.map Prod.fst

/-- Raw coverage of a tag: the stored position list, empty for unknown tags. -/
def Textbox.covOf (tb : Textbox) (t : Tag) : List Nat :=
  (assocGet tb.tags t).getD []

/-- Canonical coverage of a tag: its covered positions restricted to the
characters that exist, listed in ascending order. -/
def Textbox.coveredPositions (tb : Textbox) (t : Tag) : List Nat :=
  (List.range tb.text.length).filter fun i => decide (i ∈ tb.covOf t)

/-- Positions of the characters inside a half-open index range, used both by
`tag_add` and by the position scan of `overlapping_tag_names`. -/
def Textbox.rangePositions (tb : Textbox) (s e : Nat) : List Nat :=
  (List.range tb.text.length).filter fun i => decide (s ≤ i ∧ i < e)

/-- Maximal runs of an ascending position list, accumulating a current run
from `s` to `e` inclusive. -/
def runsAux (s e : Nat) : List Nat → List IndexRange
  | [] => [⟨s, e + 1⟩]
  | x :: xs => if x = e + 1 then runsAux s x xs else ⟨s, e + 1⟩ :: runsAux x x xs

/-- Maximal runs of an ascending position list as half-open ranges; this is
how Tk reports `tag_ranges`. -/
def runs : List Nat → List IndexRange
  | [] => []
  | x :: xs => runsAux x x xs

/-- Method `tag_ranges_` of editor.py: the ranges covered by a tag in index
order. -/
def Textbox.tag_ranges_ (tb : Textbox) (t : Tag) : List IndexRange :=
  runs (tb.coveredPositions t)

/-- Method `is_index_in_range` of editor.py. -/
def is_index_in_range (index start stop : Nat) : Bool :=
  decide (start ≤ index) && decide (index < stop)

/-- Method `is_range_in_range` of editor.py: the small range starts inside the
large one and ends inside the large one extended by one character. -/
def is_range_in_range (small large : IndexRange) : Bool :=
  is_index_in_range small.start large.start large.stop &&
  is_index_in_range small.stop large.start (large.stop + 1)

/-- Method `overlapping_tag_names` of editor.py: all tags present on at least
one character of the given range. -/
def Textbox.overlapping_tag_names (tb : Textbox) (r : IndexRange) : List Tag :=
  tb.tagNames.filter fun t =>
    (tb.rangePositions r.start r.stop).any fun p => decide (p ∈ tb.covOf t)

/-- Method `get_tags_of_exactly_range` of editor.py. -/
def Textbox.get_tags_of_exactly_range (tb : Textbox) (r : IndexRange) : List Tag :=
  tb.tagNames.filter fun t => decide (r ∈ tb.tag_ranges_ t)

/-- Method `get_tags_containing_range` of editor.py: for every tag, the ranges
of that tag which contain the given range, keeping only tags with at least one
such range (the keys a defaultdict would hold). -/
def Textbox.get_tags_containing_range (tb : Textbox) (r : IndexRange) :
    List (Tag × List IndexRange) :=
  tb.tagNames.filterMap fun t =>
    match (tb.tag_ranges_ t).filter (fun cr => is_range_in_range r cr) with
    | [] => none
    | rs => some (t, rs)

/-- Effect of a Tk text deletion on one tag coverage list: positions inside
the deleted span disappear, later positions shift left. -/
def delCov (s e : Nat) (cov : List Nat) : List Nat :=
  cov.filterMap fun p =>
    if p < s then some p else if p < e then none else some (p - (e - s))

/-- Tk `delete` between two character offsets. -/
def Textbox.delete (tb : Textbox) (s e : Nat) : Textbox :=
  { tb with
    text := tb.text.take s ++ tb.text.drop e,
    tags := tb.tags.map fun kv => (kv.1, delCov s e kv.2) }

/-- Effect of a Tk text insertion on one tag coverage list: positions at or
after the insertion point shift right, and the inserted characters inherit the
tag exactly when the tag is present on both neighbouring characters. -/
def insCov (p n : Nat) (cov : List Nat) : List Nat :=
  cov.map (fun q => if q < p then q else q + n) ++
    (if 0 < p ∧ (p - 1) ∈ cov ∧ p ∈ cov then (List.range n).map (fun j => p + j)
     else [])

/-- Tk `insert` of a character list at a character offset. -/
def Textbox.insert (tb : Textbox) (p : Nat) (s : List Char) : Textbox :=
  { tb with
    text := tb.text.take p ++ s ++ tb.text.drop p,
    tags := tb.tags.map fun kv => (kv.1, insCov p s.length kv.2) }

/-- Tk `tag_add` over a half-open range: the existing characters of the range
join the tag coverage. -/
def Textbox.tag_add (tb : Textbox) (t : Tag) (s e : Nat) : Textbox :=
  { tb with tags := assocSet tb.tags t (tb.covOf t ++ tb.rangePositions s e) }

/-- Tk `tag_delete`: the tag is removed from the widget altogether. -/
def Textbox.tag_delete (tb : Textbox) (t : Tag) : Textbox :=
  { tb with tags := assocRemove tb.tags t }

/-- Method `tag_query` of editor.py: the tags accepted by the filter which
still have at least one range, each mapped to its first range. -/
def Textbox.tag_query (tb : Textbox) (fil : Tag → Bool) : List (Tag × IndexRange) :=
  tb.tagNames.filterMap fun t =>
    if fil t then
      match tb.tag_ranges_ t with
      | [] => none
      | r :: _ => some (t, r)
    else none

/-- Method `replace_text` of editor.py: capture the tags containing the range,
delete the range (which strips tags from it), insert the new text, and re-add
every captured tag over the range of the inserted text; returns the updated
widget and the new range. -/
def Textbox.replace_text (tb : Textbox) (index_range : IndexRange)
    (new_text : String) : Textbox × IndexRange :=
  let old_tags := (tb.get_tags_containing_range index_range).map Prod.fst
  let tb1 := tb.delete index_range.start index_range.stop
  let tb2 := tb1.insert index_range.start new_text.toList
  let new_range : IndexRange :=
    ⟨index_range.start, index_range.start + new_text.length⟩
  let tb3 := old_tags.foldl
    (fun acc t => acc.tag_add t new_range.start new_range.stop) tb2
  (tb3, new_range)

/-- State of the `Editor` frame of editor.py: its settings, the textbox, the
last analysis result, the token-tag dictionary and the status-bar text. -/
structure Editor where
  settings : Settings
  textbox : Textbox
  tokens : Option (List Token)
  token_tags : List (Tag × DocToken)
  status : String

/-- Method `_get_free_token_tag` of editor.py: draw random ids in the
inclusive range from 0 to 10000000000 until the corresponding token tag is not
a key of `token_tags`. `draws` is the stream of outcomes of `random.randint`;
`none` models the loop running out of the supplied draws without finding a
free tag. -/
def get_free_token_tag (token_tags : List (Tag × DocToken)) :
    List Nat → Option Tag
  | [] => none
  | d :: rest =>
    match assocGet token_tags (TAG_TOKEN d) with
    | some _ => get_free_token_tag token_tags rest
    | none => some (TAG_TOKEN d)

/-- Method `set_status` of editor.py. -/
def Editor.set_status (ed : Editor) (text : String) : Editor :=
  { ed with status := text }

/-- Method `reset_status` of editor.py. -/
def Editor.reset_status (ed : Editor) : Editor := { ed with status := "" }

/-- Method `reset_content` of editor.py: delete the whole buffer. -/
def Editor.reset_content (ed : Editor) : Editor :=
  { ed with textbox := ed.textbox.delete 0 ed.textbox.text.length }

/-- Method `clean_stale_tokens` of editor.py: every key of `token_tags` whose
tag no longer has a range in the widget is dropped from the dictionary and
deleted from the widget. -/
def Editor.clean_stale_tokens (ed : Editor) : Editor :=
  let existing := (ed.textbox.tag_query is_token_tag).map Prod.fst
  (ed.token_tags.map Prod.fst).foldl
    (fun acc tag =>
      if tag ∈ existing then acc
      else
        { acc with
          token_tags := assocRemove acc.token_tags tag,
          textbox := acc.textbox.tag_delete tag })
    ed

/-- Loop body of `add_tokens` of editor.py over the remaining enumerated
tokens: skip a token whose range already touches a token tag, otherwise
register a fresh tag (the k-th value returned by `_get_free_token_tag`,
supplied by `supply`) and tag the range with it and with the translatable
tag. -/
def add_tokens_go (supply : Nat → Tag) (doc : List Token) :
    List (Nat × Token) → Nat → Editor → Editor
  | [], _, ed => ed
  | (j, token) :: rest, k, ed =>
    let token_range : IndexRange := ⟨token.idx, token.idx + token.text.length⟩
    if (ed.textbox.overlapping_tag_names token_range).any is_token_tag then
      add_tokens_go supply doc rest k ed
    else
      add_tokens_go supply doc rest (k + 1)
        { ed with
          token_tags := assocSet ed.token_tags (supply k) ⟨doc, j⟩,
          textbox :=
            (ed.textbox.tag_add (supply k) token_range.start
                token_range.stop).tag_add Tag.translatable token_range.start
              token_range.stop }

/-- Method `add_tokens` of editor.py: iterate over the analysed tokens in
order; `supply` enumerates the fresh tags produced by `_get_free_token_tag`
(which, by its guard, only returns tags that are not yet dictionary keys). -/
def Editor.add_tokens (ed : Editor) (supply : Nat → Tag)
    (tokens : List Token) : Editor :=
  add_tokens_go supply tokens tokens.enum 0 ed

/-- Method `get_token_tag_of_range` of editor.py: the first token tag whose
ranges contain exactly the given range. -/
def get_token_tag_of_range (tb : Textbox) (tag_range : IndexRange) : Option Tag :=
  (tb.get_tags_of_exactly_range tag_range).find? is_token_tag

/-- Method `get_selected_token_tag` of editor.py: soft `none` when the
selected tag has no range; otherwise the first selected range must carry a
token tag of exactly that range, enforced by an assert. -/
def Editor.get_selected_token_tag (ed : Editor) : Except Err (Option TagInfo) :=
  match ed.textbox.tag_ranges_ Tag.selected with
  | [] => .ok none
  | selected_range :: _ =>
    match get_token_tag_of_range ed.textbox selected_range with
    | none => .error Err.assertionError
    | some t => .ok (some ⟨t, selected_range⟩)

/-- Method `apply_picked_translation_to_selected_token` of editor.py: no-op
when no selection resolves; otherwise look the selected token up in
`token_tags` (a python dict access that can raise KeyError), append a
separator to the translation when it differs from the token text, the token is
not document-final and the next token is not punctuation (a hyphen unless the
next token starts a new word, then a space), and replace the selected range by
the resulting text. -/
def Editor.apply_picked_translation_to_selected_token (ed : Editor)
    (translation : String) : Except Err Editor :=
  match ed.get_selected_token_tag with
  | .error e => .error e
  | .ok none => .ok ed
  | .ok (some selected_token_tag) =>
    match assocGet ed.token_tags selected_token_tag.tag with
    | none => .error Err.keyError
    | some selected_token =>
      .ok { ed with
            textbox :=
              (ed.textbox.replace_text selected_token_tag.range
                (if selected_token.text ≠ translation ∧
                    selected_token.i + 1 < selected_token.doc.length ∧
                    selected_token.nbor1.pos ≠ "PUNCT" then
                  if ¬ ed.settings.filter_start_of_new_word.matches
                      selected_token.nbor1 then
                    translation ++ "-"
                  else
                    translation ++ " "
                else translation)).1 }

/-- Full widget character content including the automatic trailing newline
that Tk keeps at the end of every text widget. -/
def Textbox.fullText (tb : Textbox) : List Char := tb.text ++ ['\n']

/-- Tk `get` between two character offsets of the full widget content. -/
def Textbox.tkGet (tb : Textbox) (a b : Nat) : List Char :=
  (tb.fullText.drop a).take (b - a)

/-- Method `get_text` of editor.py: `get` from the buffer start to the Tk
index `end`, hence including the automatic trailing newline. -/
def Editor.get_text (ed : Editor) : List Char :=
  ed.textbox.tkGet 0 ed.textbox.fullText.length

/-- Method `set_text` of editor.py: set the status, clear the buffer, insert
the text at the start, reset the status. -/
def Editor.set_text (ed : Editor) (text : String) : Editor :=
  let ed := ed.set_status "Importing text..."
  let ed := ed.reset_content
  let ed := { ed with textbox := ed.textbox.insert 0 text.toList }
  ed.reset_status

/-- Method `get_and_lock_text` of editor.py, a single queued call executed on
the interaction thread: `get` from the buffer start to the Tk index `end-1c`
(the content without the automatic trailing newline) and disable the textbox
in the same step. -/
def Editor.get_and_lock_text (ed : Editor) : List Char × Editor :=
  (ed.textbox.tkGet 0 (ed.textbox.fullText.length - 1),
   { ed with textbox := { ed.textbox with disabled := true } })

/-- Method `unlock_text` of editor.py: re-enable the textbox. -/
def Editor.unlock_text (ed : Editor) : Editor :=
  { ed with textbox := { ed.textbox with disabled := false } }

/-- Method `_threaded_nlp_task` of editor.py with its queued interaction
thread calls inlined in queue order: set the status and take the locked
snapshot, run the external tokenizer on the snapshot, and only on success
queue the second batch (clean stale tokens, status, add tokens, unlock, reset
status). A raising tokenizer kills the background thread before the second
batch is ever queued, so the function returns the state right after the
snapshot. -/
def Editor.threaded_nlp_task (nlp : List Char → Except String (List Token))
    (supply : Nat → Tag) (ed : Editor) : Editor :=
  let ed1 := ed.set_status "Detecting tokens..."
  let text := ed1.get_and_lock_text.1
  let ed2 := ed1.get_and_lock_text.2
  match nlp text with
  | .error _ => ed2
  | .ok doc =>
    let ed3 := { ed2 with tokens := some doc }
    let ed4 := ed3.clean_stale_tokens
    let ed5 := ed4.set_status "Marking detected tokens..."
    let ed6 := ed5.add_tokens supply doc
    let ed7 := ed6.unlock_text
    ed7.reset_status

/-- Live background analysis threads, the observable effect of
`detect_tokens` of editor.py (lines 258 to 260): the method constructs a new
`threading.Thread` for `_threaded_nlp_task` and starts it, with no check of
any running-state flag. -/
structure AnalysisThreads where
  live : Nat
deriving DecidableEq

/-- Method `detect_tokens` of editor.py: unconditionally spawn and start one
more analysis thread. -/
def detect_tokens (c : AnalysisThreads) : AnalysisThreads := ⟨c.live + 1⟩

/-- Concrete analysis of the buffer of testable-properties Scenario A: the
tokens of the text with the verb anchored, followed by a punctuation token as
the scenario postulates for the neighbour of the anchored verb. -/
def sampleDoc : List Token :=
  [⟨"魔王", 0, "NOUN", "魔王"⟩, ⟨"を", 2, "ADP", "を"⟩,
   ⟨"倒した", 3, "VERB", "倒す"⟩, ⟨"。", 6, "PUNCT", "。"⟩]

/-- Widget state of Scenario A: the buffer holds the six characters of the
sentence, and the verb token occupying positions 3 to 5 carries a token
anchor, the translatable tag and the selection. -/
def sampleTextbox : Textbox :=
  { text := "魔王を倒した".toList,
    tags := [(Tag.translatable, [3, 4, 5]), (Tag.selected, [3, 4, 5]),
             (Tag.token 7, [3, 4, 5])],
    disabled := false }

/-- Editor state of Scenario A with the anchored verb registered in
`token_tags`. -/
def sampleEditor : Editor :=
  { settings := defaultSettings, textbox := sampleTextbox,
    tokens := some sampleDoc, token_tags := [(Tag.token 7, ⟨sampleDoc, 2⟩)],
    status := "" }

/-- Widget state with a token tag strictly inside the range about to be
replaced. -/
def c2Textbox : Textbox := ⟨"abcde".toList, [(Tag.token 1, [1])], false⟩

/-- Editor state with no tags at all, hence no selection. -/
def plainEditor : Editor :=
  { settings := defaultSettings, textbox := ⟨"abc".toList, [], false⟩,
    tokens := none, token_tags := [], status := "" }

/-- Invariant of the anchor store: the canonical coverages of two distinct
token tags never share a character position, which is exactly the statement
that no two token-anchor ranges overlap. -/
def TokenTagsDisjoint (tb : Textbox) : Prop :=
  ∀ t1 ∈ tb.tagNames, ∀ t2 ∈ tb.tagNames,
    is_token_tag t1 = true → is_token_tag t2 = true → t1 ≠ t2 →
    ∀ p ∈ tb.coveredPositions t1, p ∉ tb.coveredPositions t2

instance (tb : Textbox) : Decidable (TokenTagsDisjoint tb) :=
  inferInstanceAs (Decidable (∀ t1 ∈ tb.tagNames, ∀ t2 ∈ tb.tagNames,
    is_token_tag t1 = true → is_token_tag t2 = true → t1 ≠ t2 →
    ∀ p ∈ tb.coveredPositions t1, p ∉ tb.coveredPositions t2))

theorem assocGet_set_self {α : Type} (l : List (Tag × α)) (k : Tag) (v : α) :
    assocGet (assocSet l k v) k = some v := by
  induction l with
  | nil => simp [assocSet, assocGet]
  | cons kv rest ih =>
    obtain ⟨u, w⟩ := kv
    by_cases h : u = k
    · subst h
      simp [assocSet, assocGet]
    · simp [assocSet, assocGet, h, ih]

theorem assocGet_set_ne {α : Type} (l : List (Tag × α)) (k : Tag) (v : α)
    {u : Tag} (h : u ≠ k) : assocGet (assocSet l k v) u = assocGet l u := by
  induction l with
  | nil => simp [assocSet, assocGet, Ne.symm h]
  | cons kv rest ih =>
    obtain ⟨a, w⟩ := kv
    by_cases ha : a = k
    · subst ha
      simp [assocSet, assocGet, Ne.symm h]
    · simp [assocSet, assocGet, ha, ih]

theorem assocGet_mapVal {f : List Nat → List Nat} (l : List (Tag × List Nat))
    (t : Tag) :
    assocGet (l.map fun kv => (kv.1, f kv.2)) t = (assocGet l t).map f := by
  induction l with
  | nil => rfl
  | cons kv rest ih =>
    obtain ⟨u, w⟩ := kv
    by_cases h : u = t
    · subst h
      simp [assocGet]
    · simp [assocGet, h, ih]

theorem mem_keys_of_assocGet {α : Type} {l : List (Tag × α)} {k : Tag} {v : α}
    (h : assocGet l k = some v) : k ∈ l.map Prod.fst := by
  induction l with
  | nil => simp [assocGet] at h
  | cons kv rest ih =>
    obtain ⟨u, w⟩ := kv
    by_cases hu : u = k
    · subst hu
      simp
    · rw [assocGet, if_neg hu] at h
      exact List.mem_cons_of_mem _ (ih h)

theorem mem_coveredPositions {tb : Textbox} {t : Tag} {p : Nat} :
    p ∈ tb.coveredPositions t ↔ p < tb.text.length ∧ p ∈ tb.covOf t := by
  simp [Textbox.coveredPositions, List.mem_filter, List.mem_range]

theorem mem_rangePositions {tb : Textbox} {s e p : Nat} :
    p ∈ tb.rangePositions s e ↔ p < tb.text.length ∧ (s ≤ p ∧ p < e) := by
  simp [Textbox.rangePositions, List.mem_filter, List.mem_range]

theorem covOf_tag_add_self (tb : Textbox) (t : Tag) (s e : Nat) :
    (tb.tag_add t s e).covOf t = tb.covOf t ++ tb.rangePositions s e := by
  simp [Textbox.tag_add, Textbox.covOf, assocGet_set_self]

theorem covOf_tag_add_ne (tb : Textbox) {t u : Tag} (h : t ≠ u) (s e : Nat) :
    (tb.tag_add u s e).covOf t = tb.covOf t := by
  simp [Textbox.tag_add, Textbox.covOf, assocGet_set_ne _ _ _ h]

theorem delCov_nil (s e : Nat) : delCov s e [] = [] := rfl

theorem insCov_nil (p n : Nat) : insCov p n [] = [] := by
  simp [insCov]

theorem covOf_delete (tb : Textbox) (s e : Nat) (t : Tag) :
    (tb.delete s e).covOf t = delCov s e (tb.covOf t) := by
  simp only [Textbox.delete, Textbox.covOf, assocGet_mapVal]
  cases assocGet tb.tags t <;> simp [delCov]

theorem covOf_insert (tb : Textbox) (p : Nat) (s : List Char) (t : Tag) :
    (tb.insert p s).covOf t = insCov p s.length (tb.covOf t) := by
  simp only [Textbox.insert, Textbox.covOf, assocGet_mapVal]
  cases assocGet tb.tags t <;> simp [insCov_nil]

theorem mem_tagNames_of_covOf {tb : Textbox} {t : Tag} {p : Nat}
    (h : p ∈ tb.covOf t) : t ∈ tb.tagNames := by
  unfold Textbox.covOf at h
  cases hget : assocGet tb.tags t with
  | none => rw [hget] at h; simp at h
  | some v => exact mem_keys_of_assocGet hget

theorem text_tag_add (tb : Textbox) (t : Tag) (s e : Nat) :
    (tb.tag_add t s e).text = tb.text := rfl

theorem rangePositions_tag_add (tb : Textbox) (t : Tag) (s e a b : Nat) :
    (tb.tag_add t s e).rangePositions a b = tb.rangePositions a b := rfl

theorem mem_covered_tag_add {tb : Textbox} {u : Tag} {s e : Nat} {t : Tag}
    {p : Nat} :
    p ∈ (tb.tag_add u s e).coveredPositions t ↔
      p ∈ tb.coveredPositions t ∨ (t = u ∧ p ∈ tb.rangePositions s e) := by
  by_cases h : t = u
  · subst h
    rw [mem_coveredPositions, mem_coveredPositions, covOf_tag_add_self,
      text_tag_add, List.mem_append]
    constructor
    · rintro ⟨hlen, hc | hr⟩
      · exact Or.inl ⟨hlen, hc⟩
      · exact Or.inr ⟨rfl, hr⟩
    · rintro (⟨hlen, hc⟩ | ⟨-, hr⟩)
      · exact ⟨hlen, Or.inl hc⟩
      · exact ⟨(mem_rangePositions.mp hr).1, Or.inr hr⟩
  · rw [mem_coveredPositions, mem_coveredPositions, covOf_tag_add_ne tb h,
      text_tag_add]
    simp [h]

theorem text_foldl_tag_add (l : List Tag) (s e : Nat) :
    ∀ tb : Textbox,
      (l.foldl (fun acc t => acc.tag_add t s e) tb).text = tb.text := by
  induction l with
  | nil => intro tb; rfl
  | cons t rest ih =>
    intro tb
    rw [List.foldl_cons, ih]
    rfl

theorem disabled_foldl_tag_add (l : List Tag) (s e : Nat) :
    ∀ tb : Textbox,
      (l.foldl (fun acc t => acc.tag_add t s e) tb).disabled = tb.disabled := by
  induction l with
  | nil => intro tb; rfl
  | cons t rest ih =>
    intro tb
    rw [List.foldl_cons, ih]
    rfl

theorem mem_covOf_foldl_tag_add (s e : Nat) {t : Tag} {p : Nat} :
    ∀ (l : List Tag) (tb : Textbox),
      p ∈ ((l.foldl (fun acc u => acc.tag_add u s e) tb).covOf t) ↔
        p ∈ tb.covOf t ∨ (t ∈ l ∧ p ∈ tb.rangePositions s e) := by
  intro l
  induction l with
  | nil => intro tb; simp
  | cons u rest ih =>
    intro tb
    rw [List.foldl_cons, ih]
    have hrp : (tb.tag_add u s e).rangePositions s e = tb.rangePositions s e :=
      rfl
    rw [hrp]
    by_cases h : t = u
    · subst h
      rw [covOf_tag_add_self, List.mem_append]
      constructor
      · rintro ((hc | hr) | ⟨-, hr⟩)
        · exact Or.inl hc
        · exact Or.inr ⟨List.mem_cons_self _ _, hr⟩
        · exact Or.inr ⟨List.mem_cons_self _ _, hr⟩
      · rintro (hc | ⟨-, hr⟩)
        · exact Or.inl (Or.inl hc)
        · exact Or.inl (Or.inr hr)
    · rw [covOf_tag_add_ne tb h]
      constructor
      · rintro (hc | ⟨hm, hr⟩)
        · exact Or.inl hc
        · exact Or.inr ⟨List.mem_cons_of_mem _ hm, hr⟩
      · rintro (hc | ⟨hm, hr⟩)
        · exact Or.inl hc
        · rcases List.mem_cons.mp hm with hm | hm
          · exact absurd hm h
          · exact Or.inr ⟨hm, hr⟩

theorem length_take_of_le {α : Type} {l : List α} {n : Nat} (h : n ≤ l.length) :
    (l.take n).length = n := by
  rw [List.length_take]
  omega

theorem replace_text_text (tb : Textbox) (r : IndexRange) (new : String)
    (h0 : r.start ≤ r.stop) (h1 : r.stop ≤ tb.text.length) :
    ((tb.replace_text r new).1).text =
      tb.text.take r.start ++ new.toList ++ tb.text.drop r.stop := by
  simp only [Textbox.replace_text]
  rw [text_foldl_tag_add]
  show (tb.text.take r.start ++ tb.text.drop r.stop).take r.start ++
      new.toList ++ (tb.text.take r.start ++ tb.text.drop r.stop).drop r.start
    = _
  rw [List.take_left' (length_take_of_le (le_trans h0 h1)),
    List.drop_left' (length_take_of_le (le_trans h0 h1))]

theorem replace_text_disabled (tb : Textbox) (r : IndexRange) (new : String) :
    ((tb.replace_text r new).1).disabled = tb.disabled := by
  simp only [Textbox.replace_text]
  rw [disabled_foldl_tag_add]
  rfl

theorem replace_text_length (tb : Textbox) (r : IndexRange) (new : String)
    (h0 : r.start ≤ r.stop) (h1 : r.stop ≤ tb.text.length) :
    ((tb.replace_text r new).1).text.length =
      r.start + new.length + (tb.text.length - r.stop) := by
  rw [replace_text_text tb r new h0 h1]
  simp [List.length_append, List.length_take, List.length_drop]
  omega

theorem insert_delete_text (tb : Textbox) (r : IndexRange) (new : String)
    (h0 : r.start ≤ r.stop) (h1 : r.stop ≤ tb.text.length) :
    ((tb.delete r.start r.stop).insert r.start new.toList).text =
      tb.text.take r.start ++ new.toList ++ tb.text.drop r.stop := by
  show (tb.text.take r.start ++ tb.text.drop r.stop).take r.start ++
      new.toList ++ (tb.text.take r.start ++ tb.text.drop r.stop).drop r.start
    = _
  rw [List.take_left' (length_take_of_le (le_trans h0 h1)),
    List.drop_left' (length_take_of_le (le_trans h0 h1))]

theorem covOf_replace_text (tb : Textbox) (r : IndexRange) (new : String)
    (t : Tag) (p : Nat) :
    p ∈ ((tb.replace_text r new).1).covOf t ↔
      p ∈ insCov r.start new.toList.length (delCov r.start r.stop (tb.covOf t)) ∨
      (t ∈ (tb.get_tags_containing_range r).map Prod.fst ∧
        p ∈ ((tb.delete r.start r.stop).insert r.start
              new.toList).rangePositions r.start (r.start + new.length)) := by
  simp only [Textbox.replace_text]
  rw [mem_covOf_foldl_tag_add, covOf_insert, covOf_delete]

theorem text_replace_text_eq_foldl (tb : Textbox) (r : IndexRange)
    (new : String) :
    ((tb.replace_text r new).1).text =
      ((tb.delete r.start r.stop).insert r.start new.toList).text := by
  simp only [Textbox.replace_text]
  rw [text_foldl_tag_add]

/-- C2, amended: after `replace_text`, every tag that had a range containing
the replaced range before the edit covers every position of the new range
spanning the inserted text; and a tag whose coverage was exactly the replaced
range (such as the selected anchor being substituted) ends with its coverage
exactly the positions of the new range, which is how a token anchor survives
its own text being replaced. -/
theorem replace_reattach (tb : Textbox) (r : IndexRange) (new : String)
    (t : Tag) (h0 : r.start ≤ r.stop) (h1 : r.stop ≤ tb.text.length)
    (h2 : t ∈ (tb.get_tags_containing_range r).map Prod.fst) :
    (∀ p, r.start ≤ p → p < r.start + new.length →
        p ∈ ((tb.replace_text r new).1).coveredPositions t) ∧
    ((∀ q, q ∈ tb.covOf t ↔ (r.start ≤ q ∧ q < r.stop)) →
      ∀ p, p ∈ ((tb.replace_text r new).1).coveredPositions t ↔
        (r.start ≤ p ∧ p < r.start + new.length)) := by
  have hlenF : ((tb.replace_text r new).1).text.length =
      r.start + new.length + (tb.text.length - r.stop) :=
    replace_text_length tb r new h0 h1
  have hlen2 : ((tb.delete r.start r.stop).insert r.start
      new.toList).text.length =
      r.start + new.length + (tb.text.length - r.stop) := by
    rw [← text_replace_text_eq_foldl]
    exact hlenF
  constructor
  · intro p hp1 hp2
    rw [mem_coveredPositions, hlenF]
    refine ⟨by omega, ?_⟩
    rw [covOf_replace_text]
    refine Or.inr ⟨h2, ?_⟩
    rw [mem_rangePositions, hlen2]
    exact ⟨by omega, hp1, hp2⟩
  · intro hcov p
    constructor
    · intro hp
      rw [mem_coveredPositions] at hp
      obtain ⟨hplen, hpc⟩ := hp
      rw [covOf_replace_text] at hpc
      rcases hpc with hpc | ⟨-, hpr⟩
      · have hdel : delCov r.start r.stop (tb.covOf t) = [] := by
          simp only [delCov, List.filterMap_eq_nil_iff]
          intro q hq
          obtain ⟨hq1, hq2⟩ := (hcov q).mp hq
          rw [if_neg (by omega), if_pos hq2]
        rw [hdel, insCov_nil] at hpc
        simp at hpc
      · rw [mem_rangePositions] at hpr
        exact hpr.2
    · intro hp
      rw [mem_coveredPositions, hlenF]
      refine ⟨by omega, ?_⟩
      rw [covOf_replace_text]
      refine Or.inr ⟨h2, ?_⟩
      rw [mem_rangePositions, hlen2]
      exact ⟨by omega, hp⟩

/-- C2, counterexample: a tag whose single range is strictly contained in the
replaced range (here `token 1` covering exactly positions 1 to 2 of "abcde",
contained in the replaced range from 0 to 3) is not reattached by
`replace_text`: after replacing with "XY" the new range from 0 to 2 is
non-empty, yet the tag covers nothing at all, so the claim that every tag
fully contained in the replaced range is attached to the new range is false
for this input. -/
theorem replace_reattach_refuted :
    is_range_in_range ⟨1, 2⟩ ⟨0, 3⟩ = true ∧
    c2Textbox.tag_ranges_ (Tag.token 1) = [⟨1, 2⟩] ∧
    (c2Textbox.replace_text ⟨0, 3⟩ "XY").2 = ⟨0, 2⟩ ∧
    ((c2Textbox.replace_text ⟨0, 3⟩ "XY").1).coveredPositions (Tag.token 1)
      = [] := by
  exact ⟨by decide, by decide, by decide, by decide⟩

/-- Witness for `replace_reattach`: concrete instantiation at the Scenario A
textbox, replacing the anchored range from 3 to 6 by "DEFEAT", with every
hypothesis discharged by evaluation. -/
theorem replace_reattach_witness :
    ((3 : Nat) ≤ 6 ∧ (6 : Nat) ≤ sampleTextbox.text.length ∧
      Tag.token 7 ∈
        (sampleTextbox.get_tags_containing_range ⟨3, 6⟩).map Prod.fst) ∧
    ((∀ p, 3 ≤ p → p < 3 + "DEFEAT".length →
        p ∈ ((sampleTextbox.replace_text ⟨3, 6⟩ "DEFEAT").1).coveredPositions
          (Tag.token 7)) ∧
    ((∀ q, q ∈ sampleTextbox.covOf (Tag.token 7) ↔ (3 ≤ q ∧ q < 6)) →
      ∀ p, p ∈ ((sampleTextbox.replace_text ⟨3, 6⟩ "DEFEAT").1).coveredPositions
          (Tag.token 7) ↔ (3 ≤ p ∧ p < 3 + "DEFEAT".length))) :=
  ⟨⟨by decide, by decide, by decide⟩,
   replace_reattach sampleTextbox ⟨3, 6⟩ "DEFEAT" (Tag.token 7) (by decide)
     (by decide) (by decide)⟩

/-- C3, counterexample: in Scenario A the analysis anchors the verb token
whose text is "倒した" at positions 3 to 6 of the buffer "魔王を倒した", the
next token is punctuation, and applying the translation "DEFEAT" to the
selected anchor yields the buffer "魔王をDEFEAT", not the buffer
"魔王を倒DEFEAT" the claim states. -/
theorem scenario_a_refuted :
    (sampleEditor.apply_picked_translation_to_selected_token
        "DEFEAT").toOption.map (fun e => e.textbox.text) =
      some "魔王をDEFEAT".toList ∧
    (sampleEditor.apply_picked_translation_to_selected_token
        "DEFEAT").toOption.map (fun e => e.textbox.text) ≠
      some "魔王を倒DEFEAT".toList := by
  exact ⟨by decide, by decide⟩

/-- C3, amended: in Scenario A, applying the translation "DEFEAT" to the
selected anchor on the verb token "倒した" with a punctuation token next
produces the buffer "魔王をDEFEAT" with no trailing separator, and afterwards
the anchor tag's single range is exactly the range of the inserted text
"DEFEAT" (positions 3 to 9). -/
theorem scenario_a_amended :
    (sampleEditor.apply_picked_translation_to_selected_token
        "DEFEAT").toOption.map (fun e => e.textbox.text) =
      some "魔王をDEFEAT".toList ∧
    (sampleEditor.apply_picked_translation_to_selected_token
        "DEFEAT").toOption.map (fun e => e.textbox.tag_ranges_ (Tag.token 7)) =
      some [⟨3, 9⟩] ∧
    (sampleEditor.apply_picked_translation_to_selected_token
        "DEFEAT").toOption.map (fun e => e.textbox.text.drop 3) =
      some "DEFEAT".toList := by
  exact ⟨by decide, by decide, by decide⟩

/-- C1: whenever the selection resolves to an anchored token, applying a
translation replaces the selected range by the translation with a separator
appended exactly when the translation differs from the token text, the token
is not document-final and the next token by sequence index is not punctuation;
the separator is a single space when the next token satisfies the word-start
predicate and a hyphen otherwise, and in every other case (identical text,
document-final token or punctuation next) nothing is appended. -/
theorem apply_separator_rule (ed : Editor) (tr : String) (info : TagInfo)
    (dt : DocToken)
    (hsel : ed.get_selected_token_tag = .ok (some info))
    (hdict : assocGet ed.token_tags info.tag = some dt)
    (h0 : info.range.start ≤ info.range.stop)
    (h1 : info.range.stop ≤ ed.textbox.text.length) :
    (ed.apply_picked_translation_to_selected_token tr).toOption.map
        (fun e => e.textbox.text) =
      some (ed.textbox.text.take info.range.start ++
        (if dt.text ≠ tr ∧ dt.i + 1 < dt.doc.length ∧ dt.nbor1.pos ≠ "PUNCT"
         then
           (if ed.settings.filter_start_of_new_word.matches dt.nbor1 then
              tr ++ " "
            else tr ++ "-")
         else tr).toList ++
        ed.textbox.text.drop info.range.stop) := by
  unfold Editor.apply_picked_translation_to_selected_token
  simp only [hsel]
  simp only [hdict]
  by_cases hc : dt.text ≠ tr ∧ dt.i + 1 < dt.doc.length ∧
      dt.nbor1.pos ≠ "PUNCT"
  · rw [if_pos hc, if_pos hc]
    by_cases hm : ed.settings.filter_start_of_new_word.matches dt.nbor1
    · rw [if_neg (by simpa using hm), if_pos hm]
      simp only [Except.toOption, Option.map]
      exact congrArg some (replace_text_text _ _ _ h0 h1)
    · rw [if_pos (by simpa using hm), if_neg hm]
      simp only [Except.toOption, Option.map]
      exact congrArg some (replace_text_text _ _ _ h0 h1)
  · rw [if_neg hc, if_neg hc]
    simp only [Except.toOption, Option.map]
    exact congrArg some (replace_text_text _ _ _ h0 h1)

/-- Witness for `apply_separator_rule`: concrete instantiation at the
Scenario A editor with the translation "DEFEAT", all hypotheses discharged by
evaluation. -/
theorem apply_separator_rule_witness :
    (sampleEditor.get_selected_token_tag =
        .ok (some ⟨Tag.token 7, ⟨3, 6⟩⟩) ∧
      assocGet sampleEditor.token_tags (Tag.token 7) =
        some ⟨sampleDoc, 2⟩ ∧
      (3 : Nat) ≤ 6 ∧ (6 : Nat) ≤ sampleEditor.textbox.text.length) ∧
    (sampleEditor.apply_picked_translation_to_selected_token
        "DEFEAT").toOption.map (fun e => e.textbox.text) =
      some (sampleEditor.textbox.text.take 3 ++
        (if (DocToken.text ⟨sampleDoc, 2⟩) ≠ "DEFEAT" ∧
            2 + 1 < sampleDoc.length ∧
            (DocToken.nbor1 ⟨sampleDoc, 2⟩).pos ≠ "PUNCT" then
           (if sampleEditor.settings.filter_start_of_new_word.matches
               (DocToken.nbor1 ⟨sampleDoc, 2⟩) then "DEFEAT" ++ " "
            else "DEFEAT" ++ "-")
         else "DEFEAT").toList ++
        sampleEditor.textbox.text.drop 6) :=
  ⟨⟨rfl, rfl, by decide, by decide⟩,
   apply_separator_rule sampleEditor "DEFEAT" ⟨Tag.token 7, ⟨3, 6⟩⟩
     ⟨sampleDoc, 2⟩ rfl rfl (by decide) (by decide)⟩

/-- C4: `detect_tokens` has no running-state guard, so two back-to-back calls
from the idle state leave two live background analysis threads; the second
call is neither rejected nor a no-op, refuting the claim that analysis is not
reentrant. -/
theorem detect_tokens_double_spawn :
    (detect_tokens (detect_tokens ⟨0⟩)).live = 2 := rfl

/-- C5: when the tokenizer call raises, the background task dies before the
second batch of interaction-thread calls is queued: no tags are added or
removed and the token dictionary and analysis result are untouched, but the
textbox stays disabled (the buffer is never unlocked) and the status stays at
the in-progress message, refuting the claim that the coordinator unlocks the
buffer and surfaces the error. -/
theorem threaded_nlp_task_on_error (ed : Editor) (msg : String)
    (supply : Nat → Tag) :
    (ed.threaded_nlp_task (fun _ => .error msg) supply).textbox.disabled
        = true ∧
    (ed.threaded_nlp_task (fun _ => .error msg) supply).textbox.tags
        = ed.textbox.tags ∧
    (ed.threaded_nlp_task (fun _ => .error msg) supply).textbox.text
        = ed.textbox.text ∧
    (ed.threaded_nlp_task (fun _ => .error msg) supply).token_tags
        = ed.token_tags ∧
    (ed.threaded_nlp_task (fun _ => .error msg) supply).tokens = ed.tokens ∧
    (ed.threaded_nlp_task (fun _ => .error msg) supply).status
        = "Detecting tokens..." :=
  ⟨rfl, rfl, rfl, rfl, rfl, rfl⟩

/-- C6: `get_selected_token_tag` returns a soft `none` (and raises nothing)
once the user has deleted the text under the currently selected anchor: any
deletion whose span covers every position of the selected tag leaves the
selected tag without ranges, and the call answers `none`; likewise it answers
`none` whenever no selected coverage exists at all. -/
theorem get_selected_token_tag_stale (ed : Editor) (s e : Nat)
    (h : ∀ p ∈ ed.textbox.covOf Tag.selected, s ≤ p ∧ p < e) :
    ({ ed with textbox := ed.textbox.delete s e } : Editor).get_selected_token_tag
        = .ok none ∧
    (ed.textbox.covOf Tag.selected = [] →
      ed.get_selected_token_tag = .ok none) := by
  constructor
  · have hcov : (ed.textbox.delete s e).covOf Tag.selected = [] := by
      rw [covOf_delete]
      simp only [delCov, List.filterMap_eq_nil_iff]
      intro q hq
      obtain ⟨hq1, hq2⟩ := h q hq
      rw [if_neg (by omega), if_pos hq2]
    have hranges : (ed.textbox.delete s e).tag_ranges_ Tag.selected = [] := by
      rw [Textbox.tag_ranges_]
      have : (ed.textbox.delete s e).coveredPositions Tag.selected = [] := by
        rw [Textbox.coveredPositions]
        rw [List.filter_eq_nil_iff]
        intro a _
        simp [hcov]
      rw [this]
      rfl
    unfold Editor.get_selected_token_tag
    rw [show ({ ed with textbox := ed.textbox.delete s e } : Editor).textbox
        = ed.textbox.delete s e from rfl, hranges]
  · intro h0
    have hranges : ed.textbox.tag_ranges_ Tag.selected = [] := by
      rw [Textbox.tag_ranges_]
      have : ed.textbox.coveredPositions Tag.selected = [] := by
        rw [Textbox.coveredPositions]
        rw [List.filter_eq_nil_iff]
        intro a _
        simp [h0]
      rw [this]
      rfl
    unfold Editor.get_selected_token_tag
    rw [hranges]

/-- Witness for `get_selected_token_tag_stale`: deleting positions 3 to 6 of
the Scenario A buffer removes exactly the selected coverage, after which the
selection query answers a soft `none`. -/
theorem get_selected_token_tag_stale_witness :
    (∀ p ∈ sampleEditor.textbox.covOf Tag.selected, 3 ≤ p ∧ p < 6) ∧
    (({ sampleEditor with
        textbox := sampleEditor.textbox.delete 3 6 } : Editor).get_selected_token_tag
        = .ok none ∧
      (sampleEditor.textbox.covOf Tag.selected = [] →
        sampleEditor.get_selected_token_tag = .ok none)) :=
  ⟨by decide, get_selected_token_tag_stale sampleEditor 3 6 (by decide)⟩

/-- C8: applying a picked translation when no current selection resolves (the
selection query answers `none`, as after the selected text was deleted) is a
no-op: the whole editor state, in particular the buffer text and all tags, is
returned unchanged and no error is raised. -/
theorem apply_noop_without_selection (ed : Editor) (tr : String)
    (h : ed.get_selected_token_tag = .ok none) :
    ed.apply_picked_translation_to_selected_token tr = .ok ed := by
  unfold Editor.apply_picked_translation_to_selected_token
  rw [h]

/-- Witness for `apply_noop_without_selection`: an editor with no tags at all
resolves no selection, and applying a translation returns it unchanged. -/
theorem apply_noop_without_selection_witness :
    plainEditor.get_selected_token_tag = .ok none ∧
    plainEditor.apply_picked_translation_to_selected_token "DEFEAT"
      = .ok plainEditor :=
  ⟨rfl, apply_noop_without_selection plainEditor "DEFEAT" rfl⟩

theorem get_and_lock_text_fst (ed : Editor) :
    ed.get_and_lock_text.1 = ed.textbox.text := by
  show ed.textbox.tkGet 0 (ed.textbox.fullText.length - 1) = ed.textbox.text
  simp [Textbox.tkGet, Textbox.fullText]

theorem get_text_eq (ed : Editor) :
    ed.get_text = ed.textbox.text ++ ['\n'] := by
  show ed.textbox.tkGet 0 ed.textbox.fullText.length = _
  simp [Textbox.tkGet, Textbox.fullText]

theorem clean_stale_foldl_disabled (existing : List Tag) :
    ∀ (keys : List Tag) (ed : Editor),
      ((keys.foldl
        (fun acc tag =>
          if tag ∈ existing then acc
          else
            { acc with
              token_tags := assocRemove acc.token_tags tag,
              textbox := acc.textbox.tag_delete tag })
        ed)).textbox.disabled = ed.textbox.disabled := by
  intro keys
  induction keys with
  | nil => intro ed; rfl
  | cons t rest ih =>
    intro ed
    rw [List.foldl_cons, ih]
    by_cases h : t ∈ existing
    · rw [if_pos h]
    · rw [if_neg h]
      rfl

theorem clean_stale_tokens_disabled (ed : Editor) :
    ed.clean_stale_tokens.textbox.disabled = ed.textbox.disabled := by
  unfold Editor.clean_stale_tokens
  exact clean_stale_foldl_disabled _ _ ed

theorem add_tokens_go_disabled (supply : Nat → Tag) (doc : List Token) :
    ∀ (L : List (Nat × Token)) (k : Nat) (ed : Editor),
      (add_tokens_go supply doc L k ed).textbox.disabled
        = ed.textbox.disabled := by
  intro L
  induction L with
  | nil => intro k ed; rfl
  | cons jt rest ih =>
    intro k ed
    obtain ⟨j, token⟩ := jt
    rw [add_tokens_go]
    by_cases h : (ed.textbox.overlapping_tag_names
        ⟨token.idx, token.idx + token.text.length⟩).any is_token_tag
    · rw [if_pos h, ih]
    · rw [if_neg h, ih]
      rfl

theorem add_tokens_disabled (ed : Editor) (supply : Nat → Tag)
    (doc : List Token) :
    (ed.add_tokens supply doc).textbox.disabled = ed.textbox.disabled :=
  add_tokens_go_disabled supply doc doc.enum 0 ed

theorem apply_picked_disabled (ed : Editor) (tr : String) :
    ((ed.apply_picked_translation_to_selected_token tr).toOption.getD
        ed).textbox.disabled = ed.textbox.disabled := by
  unfold Editor.apply_picked_translation_to_selected_token
  split
  · rfl
  · rfl
  · split
    · rfl
    · simp only [Except.toOption, Option.getD]
      exact replace_text_disabled _ _ _

/-- C9: the analysis snapshot `get_and_lock_text` returns the whole buffer
content without the automatic terminal newline and disables the textbox in
the same single interaction-thread call, while `get_text` returns the content
including that trailing newline; and among all modelled editor operations the
lock is established only by that snapshot call: every other operation leaves
the disabled flag unchanged and `unlock_text` only clears it. -/
theorem lock_discipline (ed : Editor) (t : String) (supply : Nat → Tag)
    (doc : List Token) (tr : String) :
    ed.get_and_lock_text.1 = ed.textbox.text ∧
    ed.get_and_lock_text.2.textbox.disabled = true ∧
    ed.get_and_lock_text.2.textbox.text = ed.textbox.text ∧
    ed.get_text = ed.textbox.text ++ ['\n'] ∧
    (ed.set_status t).textbox.disabled = ed.textbox.disabled ∧
    ed.reset_status.textbox.disabled = ed.textbox.disabled ∧
    ed.reset_content.textbox.disabled = ed.textbox.disabled ∧
    (ed.set_text t).textbox.disabled = ed.textbox.disabled ∧
    ed.clean_stale_tokens.textbox.disabled = ed.textbox.disabled ∧
    (ed.add_tokens supply doc).textbox.disabled = ed.textbox.disabled ∧
    ((ed.apply_picked_translation_to_selected_token tr).toOption.getD
        ed).textbox.disabled = ed.textbox.disabled ∧
    ed.unlock_text.textbox.disabled = false :=
  ⟨get_and_lock_text_fst ed, rfl, rfl, get_text_eq ed, rfl, rfl, rfl, rfl,
   clean_stale_tokens_disabled ed, add_tokens_disabled ed supply doc,
   apply_picked_disabled ed tr, rfl⟩

theorem get_free_token_tag_of_exists (token_tags : List (Tag × DocToken)) :
    ∀ draws : List Nat,
      (∃ d ∈ draws, assocGet token_tags (TAG_TOKEN d) = none) →
      ∃ t, get_free_token_tag token_tags draws = some t ∧
        assocGet token_tags t = none := by
  intro draws
  induction draws with
  | nil =>
    rintro ⟨d, hd, -⟩
    cases hd
  | cons d rest ih =>
    rintro ⟨d', hd', hfree⟩
    rw [get_free_token_tag]
    cases hget : assocGet token_tags (TAG_TOKEN d) with
    | none => exact ⟨TAG_TOKEN d, rfl, hget⟩
    | some v =>
      rcases List.mem_cons.mp hd' with hd' | hd'
      · subst hd'
        rw [hget] at hfree
        cases hfree
      · exact ih ⟨d', hd', hfree⟩

theorem tag_token_injective : Function.Injective TAG_TOKEN := by
  intro a b h
  simpa [TAG_TOKEN] using h

theorem exists_free_id (token_tags : List (Tag × DocToken))
    (h : token_tags.length ≤ 10000000000) :
    ∃ d ∈ List.range (10000000000 + 1),
      assocGet token_tags (TAG_TOKEN d) = none := by
  by_contra hc
  push_neg at hc
  have hsub : (List.range (10000000000 + 1)).map TAG_TOKEN ⊆
      token_tags.map Prod.fst := by
    intro t ht
    obtain ⟨d, hd, rfl⟩ := List.mem_map.mp ht
    cases hget : assocGet token_tags (TAG_TOKEN d) with
    | none => exact absurd hget (hc d hd)
    | some v => exact mem_keys_of_assocGet hget
  have hnd : ((List.range (10000000000 + 1)).map TAG_TOKEN).Nodup :=
    (List.nodup_range _).map tag_token_injective
  have hlen := (List.subperm_of_subset hnd hsub).length_le
  rw [List.length_map, List.length_range, List.length_map] at hlen
  omega

/-- C10: whenever `token_tags` has at most 10000000000 entries, some id in
the inclusive randint range 0 to 10000000000 is free by pigeonhole, so the
retry loop of `_get_free_token_tag` terminates as soon as the random stream
has visited every candidate (as it does with probability one), and the tag it
returns is never an existing key of `token_tags`. -/
theorem get_free_token_tag_fresh (token_tags : List (Tag × DocToken))
    (h : token_tags.length ≤ 10000000000) :
    ∃ t, get_free_token_tag token_tags (List.range (10000000000 + 1))
        = some t ∧ assocGet token_tags t = none :=
  get_free_token_tag_of_exists token_tags _ (exists_free_id token_tags h)

/-- Witness for `get_free_token_tag_fresh`: the empty dictionary has at most
10000000000 entries, so a fresh tag is found. -/
theorem get_free_token_tag_fresh_witness :
    ([] : List (Tag × DocToken)).length ≤ 10000000000 ∧
    ∃ t, get_free_token_tag [] (List.range (10000000000 + 1)) = some t ∧
      assocGet ([] : List (Tag × DocToken)) t = none :=
  ⟨by decide, get_free_token_tag_fresh [] (by decide)⟩

theorem no_token_overlap_of_guard {tb : Textbox} {r : IndexRange}
    (hg : ((tb.overlapping_tag_names r).any is_token_tag) = false) :
    ∀ t, is_token_tag t = true →
      ∀ p ∈ tb.rangePositions r.start r.stop, p ∉ tb.covOf t := by
  intro t ht p hp hmem
  have htn : t ∈ tb.tagNames := mem_tagNames_of_covOf hmem
  have hfil : t ∈ tb.overlapping_tag_names r := by
    rw [Textbox.overlapping_tag_names]
    refine List.mem_filter.mpr ⟨htn, ?_⟩
    exact List.any_eq_true.mpr ⟨p, hp, by simpa using hmem⟩
  have hany : (tb.overlapping_tag_names r).any is_token_tag = true :=
    List.any_eq_true.mpr ⟨t, hfil, ht⟩
  rw [hg] at hany
  cases hany

theorem disjoint_after_token_add (tb : Textbox) (R : IndexRange) (u : Tag)
    (hg : ((tb.overlapping_tag_names R).any is_token_tag) = false)
    (hd : TokenTagsDisjoint tb) :
    TokenTagsDisjoint
      ((tb.tag_add u R.start R.stop).tag_add Tag.translatable R.start
        R.stop) := by
  intro t1 _ t2 _ ht1 ht2 hne p hp1 hp2
  have expand : ∀ t, is_token_tag t = true →
      (p ∈ ((tb.tag_add u R.start R.stop).tag_add Tag.translatable R.start
          R.stop).coveredPositions t ↔
        p ∈ tb.coveredPositions t ∨
          (t = u ∧ p ∈ tb.rangePositions R.start R.stop)) := by
    intro t ht
    rw [mem_covered_tag_add, mem_covered_tag_add, rangePositions_tag_add]
    constructor
    · rintro ((h | h) | ⟨heq, -⟩)
      · exact Or.inl h
      · exact Or.inr h
      · subst heq
        simp [is_token_tag] at ht
    · rintro (h | h)
      · exact Or.inl (Or.inl h)
      · exact Or.inl (Or.inr h)
  rw [expand t1 ht1] at hp1
  rw [expand t2 ht2] at hp2
  rcases hp1 with hp1 | ⟨he1, hr1⟩
  · rcases hp2 with hp2 | ⟨he2, hr2⟩
    · exact hd t1 (mem_tagNames_of_covOf (mem_coveredPositions.mp hp1).2) t2
        (mem_tagNames_of_covOf (mem_coveredPositions.mp hp2).2) ht1 ht2 hne p
        hp1 hp2
    · exact no_token_overlap_of_guard hg t1 ht1 p hr2
        (mem_coveredPositions.mp hp1).2
  · rcases hp2 with hp2 | ⟨he2, hr2⟩
    · exact no_token_overlap_of_guard hg t2 ht2 p hr1
        (mem_coveredPositions.mp hp2).2
    · exact hne (he1.trans he2.symm)

theorem add_tokens_go_disjoint (supply : Nat → Tag) (doc : List Token) :
    ∀ (L : List (Nat × Token)) (k : Nat) (ed : Editor),
      TokenTagsDisjoint ed.textbox →
      TokenTagsDisjoint (add_tokens_go supply doc L k ed).textbox := by
  intro L
  induction L with
  | nil => intro k ed h; exact h
  | cons jt rest ih =>
    intro k ed h
    obtain ⟨j, token⟩ := jt
    rw [add_tokens_go]
    by_cases hg : (ed.textbox.overlapping_tag_names
        ⟨token.idx, token.idx + token.text.length⟩).any is_token_tag
    · rw [if_pos hg]
      exact ih k ed h
    · rw [if_neg hg]
      exact ih (k + 1) _
        (disjoint_after_token_add ed.textbox
          ⟨token.idx, token.idx + token.text.length⟩ (supply k)
          (by simpa using hg) h)

/-- C7: the reconciliation step `add_tokens` preserves, for any token
sequence and any tag supply, the invariant that no two token-anchor tags
cover a common character position: a candidate token range that overlaps any
existing token tag is skipped rather than tagged, so along every sequence of
`add_tokens` reconciliation steps no two token-anchor ranges ever overlap. -/
theorem add_tokens_disjoint (ed : Editor) (supply : Nat → Tag)
    (doc : List Token) (h : TokenTagsDisjoint ed.textbox) :
    TokenTagsDisjoint (ed.add_tokens supply doc).textbox :=
  add_tokens_go_disjoint supply doc doc.enum 0 ed h

/-- Witness for `add_tokens_disjoint`: the Scenario A editor satisfies the
invariant and keeps satisfying it after re-adding the analysis tokens. -/
theorem add_tokens_disjoint_witness :
    TokenTagsDisjoint sampleEditor.textbox ∧
    TokenTagsDisjoint
      (sampleEditor.add_tokens (fun k => Tag.token (100 + k))
        sampleDoc).textbox :=
  ⟨by decide,
   add_tokens_disjoint sampleEditor (fun k => Tag.token (100 + k)) sampleDoc
     (by decide)⟩
